import Mathlib

/-!
Shallow embedding of the audio playback controller in
`src/src-tauri/src/audio.rs` (PDF-AudioBook).

The controller thread `run_audio_thread` is modelled as a step function on
an explicit thread-local state.  Wall-clock instants and durations are
modelled as rationals (seconds); `Instant::elapsed()` at time `now` for an
instant recorded at `start` is `now - start`.  The `f64 -> u64` cast
`(x) as u64` truncates toward zero and saturates at zero for negative
values, which on our values coincides with `Int.toNat ∘ Int.floor`.
The sink emptiness query `Sink::empty()` is an external device observation;
every event that reads it carries the observed boolean.
-/

/-- The rodio `Sink` as the controller sees it: the speed and volume last
applied to it and whether it is paused.  Emptiness is an external
observation carried by events, not stored state. -/
structure Sink where
  speed : ℚ
  volume : ℚ
  paused : Bool
deriving DecidableEq

/-- `AudioState`, the published snapshot value (audio.rs lines 7-14). -/
structure AudioState where
  is_playing : Bool
  position_ms : ℕ
  duration_ms : ℕ
  speed : ℚ
  volume : ℚ
deriving DecidableEq

/-- Outcome of the fallible steps in the `Load` arm: output-device
acquisition, file open, decode, sink creation (audio.rs lines 141-170). -/
inductive LoadResult
  | ok
  | errOutput
  | errFile
  | errDecode
  | errSink
deriving DecidableEq

/-- `AudioCommand` (audio.rs lines 22-32).  `load` carries the outcome of
the fallible device and file work; `isFinished` carries the sink emptiness
observed at the instant the query is handled. -/
inductive AudioCommand
  | load (r : LoadResult) (duration_ms : ℕ)
  | play
  | pause
  | stop
  | setSpeed (f : ℚ)
  | setVolume (f : ℚ)
  | getState
  | isFinished (sinkEmpty : Bool)
deriving DecidableEq

/-- Thread-local state of `run_audio_thread` (audio.rs lines 121-128):
optional sink, optional resume instant `start_time`, accumulated
`pause_position` (seconds), loaded duration (already in ms since
`Duration::from_millis(d).as_millis() = d`), current speed, volume and
playing flag. -/
structure ThreadState where
  sink : Option Sink
  start_time : Option ℚ
  pause_position : ℚ
  duration_ms : ℕ
  speed : ℚ
  volume : ℚ
  is_playing : Bool
deriving DecidableEq

/-- Rust `f32::clamp(lo, hi)` on non-NaN inputs. -/
def rclamp (x lo hi : ℚ) : ℚ :=
  if x < lo then lo else if x > hi then hi else x

/-- `(position.as_secs_f64() * speed as f64 * 1000.0) as u64`
(audio.rs lines 216 and 238): multiply seconds by speed and 1000, then
truncate to an unsigned integer (negative values saturate to 0). -/
def posMs (position speed : ℚ) : ℕ :=
  (Int.floor (position * speed * 1000)).toNat

/-- The derived playback position in seconds (audio.rs lines 211-215 and
233-237): `pause_position + start.elapsed()` when a resume instant is set,
else `pause_position`. -/
def derivedPosition (st : ThreadState) (now : ℚ) : ℚ :=
  match st.start_time with
  | some start => st.pause_position + (now - start)
  | none => st.pause_position

/-- The `AudioState` value the thread computes for a `GetState` reply
(audio.rs lines 210-224) and for the timeout publish (lines 233-246);
both sites compute exactly these five fields. -/
def mkState (st : ThreadState) (now : ℚ) : AudioState :=
  { is_playing := st.is_playing
    position_ms := posMs (derivedPosition st now) st.speed
    duration_ms := st.duration_ms
    speed := st.speed
    volume := st.volume }

/-- Result of handling one command: next thread state, the `GetState`
reply if any, the `IsFinished` reply if any.  Command arms never write the
shared snapshot. -/
structure CmdOut where
  state : ThreadState
  stateReply : Option AudioState
  finReply : Option Bool
deriving DecidableEq

/-- One command arm of `run_audio_thread` (audio.rs lines 133-230),
handled at wall-clock time `now`. -/
def handleCommand (st : ThreadState) (now : ℚ) : AudioCommand → CmdOut
  | .load r duration_ms =>
    -- lines 134-171: sink.take() + stop, then the fallible chain
    let st0 : ThreadState := { st with sink := none }
    match r with
    | .ok =>
      -- lines 149-160: fresh sink at current speed and volume, paused,
      -- duration set, accumulator and resume instant reset, not playing
      { state := { st0 with
          sink := some { speed := st.speed, volume := st.volume, paused := true }
          duration_ms := duration_ms
          pause_position := 0
          start_time := none
          is_playing := false }
        stateReply := none
        finReply := none }
    | _ =>
      -- lines 161-170: eprintln only; no other state change
      { state := st0, stateReply := none, finReply := none }
  | .play =>
    -- lines 173-178
    match st.sink with
    | some k =>
      { state := { st with
          sink := some { k with paused := false }
          start_time := some now
          is_playing := true }
        stateReply := none
        finReply := none }
    | none => { state := st, stateReply := none, finReply := none }
  | .pause =>
    -- lines 180-188
    match st.sink with
    | some k =>
      let st1 : ThreadState :=
        match st.start_time with
        | some start =>
          { st with pause_position := st.pause_position + (now - start)
                    start_time := none }
        | none => st
      { state := { st1 with sink := some { k with paused := true }, is_playing := false }
        stateReply := none
        finReply := none }
    | none => { state := st, stateReply := none, finReply := none }
  | .stop =>
    -- lines 189-197: sink and stream discarded, resume instant cleared,
    -- accumulator reset, not playing; duration is NOT reset
    { state := { st with
        sink := none
        start_time := none
        pause_position := 0
        is_playing := false }
      stateReply := none
      finReply := none }
  | .setSpeed f =>
    -- lines 198-203
    let sp := rclamp f (1/2) 2
    { state := { st with
        speed := sp
        sink := Option.map (fun k => { k with speed := sp }) st.sink }
      stateReply := none
      finReply := none }
  | .setVolume f =>
    -- lines 204-209
    let v := rclamp f 0 1
    { state := { st with
        volume := v
        sink := Option.map (fun k => { k with volume := v }) st.sink }
      stateReply := none
      finReply := none }
  | .getState =>
    -- lines 210-225
    { state := st, stateReply := some (mkState st now), finReply := none }
  | .isFinished sinkEmpty =>
    -- lines 226-229: sink.as_ref().map(s.empty()).unwrap_or(true)
    { state := st
      stateReply := none
      finReply := some ((Option.map (fun _ => sinkEmpty) st.sink).getD true) }

/-- Result of one receive-timeout tick: next thread state and the snapshot
written whole into the shared mailbox. -/
structure TickOut where
  state : ThreadState
  published : AudioState
deriving DecidableEq

/-- The receive-timeout branch (audio.rs lines 231-254): publish the
derived state, then, if a sink exists, is empty and we are playing, clear
the local playing flag. -/
def handleTimeout (st : ThreadState) (now : ℚ) (sinkEmpty : Bool) : TickOut :=
  let published := mkState st now
  let st1 :=
    match st.sink with
    | some _ => if sinkEmpty && st.is_playing then { st with is_playing := false } else st
    | none => st
  { state := st1, published := published }

/-- An event observed by the controller loop: either a command received at
time `now`, or a receive timeout at time `now` carrying the sink emptiness
the exhaustion check would observe. -/
inductive Event
  | cmd (now : ℚ) (c : AudioCommand)
  | tick (now : ℚ) (sinkEmpty : Bool)
deriving DecidableEq

/-- Thread-state part of one loop iteration. -/
def threadStep (st : ThreadState) : Event → ThreadState
  | .cmd now c => (handleCommand st now c).state
  | .tick now sinkEmpty => (handleTimeout st now sinkEmpty).state

/-- Whole-system state: the thread-local state and the shared
`Arc<Mutex<AudioState>>` snapshot that `get_state` reads. -/
structure SysState where
  thread : ThreadState
  shared : AudioState
deriving DecidableEq

/-- One loop iteration on the whole system: only the timeout branch writes
the shared snapshot (the command arms never lock `state`). -/
def sysStep (s : SysState) (e : Event) : SysState :=
  { thread := threadStep s.thread e
    shared :=
      match e with
      | .tick now sinkEmpty => (handleTimeout s.thread now sinkEmpty).published
      | .cmd _ _ => s.shared }

/-- Initial thread-local state (audio.rs lines 121-128). -/
def initThread : ThreadState :=
  { sink := none, start_time := none, pause_position := 0, duration_ms := 0
    speed := 1, volume := 1, is_playing := false }

/-- Initial shared snapshot (audio.rs lines 47-53). -/
def initShared : AudioState :=
  { is_playing := false, position_ms := 0, duration_ms := 0, speed := 1, volume := 1 }

/-- Initial whole-system state at `AudioController::new`. -/
def initSys : SysState := { thread := initThread, shared := initShared }

/-- Run the loop over a list of events. -/
def runSys (s : SysState) (l : List Event) : SysState := List.foldl sysStep s l

/-- Run the thread-state part over a list of events. -/
def runThread (st : ThreadState) (l : List Event) : ThreadState := List.foldl threadStep st l

/-- The receive timeout of the controller loop in milliseconds
(audio.rs line 132). -/
def tickMs : ℕ := 50

/-- The reply timeout of `AudioController::is_finished` in milliseconds
(audio.rs line 109). -/
def isFinishedTimeoutMs : ℕ := 100

/-- Caller side of `AudioController::is_finished` (audio.rs lines
106-113): if the command send succeeded, the reply received within the
timeout or `true` when none arrived; `true` when the send failed. -/
def controllerIsFinished (sendOk : Bool) (reply : Option Bool) : Bool :=
  if sendOk then reply.getD true else true

/-- The fully stopped configuration of the thread-local state: no sink,
no resume instant, zero accumulator, not playing.  This is what the `Stop`
arm establishes; note `duration_ms` is not part of it. -/
def StoppedState (st : ThreadState) : Prop :=
  st.sink = none ∧ st.start_time = none ∧ st.pause_position = 0 ∧ st.is_playing = false

instance (st : ThreadState) : Decidable (StoppedState st) := by
  unfold StoppedState
  infer_instance

/-- Whether an event is a `Load` command (of any outcome). -/
def Event.isLoad : Event → Bool
  | .cmd _ (.load _ _) => true
  | _ => false

/-- Whether an event is a pure observation: a receive timeout, a
`GetState` query or an `IsFinished` query.  None of these touch the
position bookkeeping. -/
def Event.isObservation : Event → Bool
  | .tick _ _ => true
  | .cmd _ .getState => true
  | .cmd _ (.isFinished _) => true
  | _ => false

/-! ## Helper lemmas -/

/-- Every event other than a `Load` preserves the stopped configuration
and the stored duration. -/
theorem stopped_step_preserved (st : ThreadState) (e : Event) (he : e.isLoad = false)
    (h : StoppedState st) :
    StoppedState (threadStep st e) ∧ (threadStep st e).duration_ms = st.duration_ms := by
  obtain ⟨h1, h2, h3, h4⟩ := h
  cases e with
  | cmd now c =>
    cases c with
    | load r d => simp [Event.isLoad] at he
    | play => simp [threadStep, handleCommand, h1, StoppedState, h2, h3, h4]
    | pause => simp [threadStep, handleCommand, h1, StoppedState, h2, h3, h4]
    | stop => simp [threadStep, handleCommand, StoppedState]
    | setSpeed f => simp [threadStep, handleCommand, h1, StoppedState, h2, h3, h4]
    | setVolume f => simp [threadStep, handleCommand, h1, StoppedState, h2, h3, h4]
    | getState => simp [threadStep, handleCommand, StoppedState, h1, h2, h3, h4]
    | isFinished b => simp [threadStep, handleCommand, StoppedState, h1, h2, h3, h4]
  | tick now b => simp [threadStep, handleTimeout, h1, StoppedState, h2, h3, h4]

/-- Run-level closure of `stopped_step_preserved`. -/
theorem stopped_run_preserved (st : ThreadState) (l : List Event)
    (hl : ∀ e ∈ l, e.isLoad = false) (h : StoppedState st) :
    StoppedState (runThread st l) ∧ (runThread st l).duration_ms = st.duration_ms := by
  induction l generalizing st with
  | nil => exact ⟨h, rfl⟩
  | cons e t ih =>
    have he := hl e (List.mem_cons_self e t)
    have hstep := stopped_step_preserved st e he h
    have hrest := ih (threadStep st e) (fun x hx => hl x (List.mem_cons_of_mem e hx)) hstep.1
    exact ⟨hrest.1, hrest.2.trans hstep.2⟩

/-- In a stopped configuration the computed `AudioState` reports position
zero and not playing, at every instant. -/
theorem stopped_mkState (st : ThreadState) (h : StoppedState st) (t : ℚ) :
    mkState st t = ⟨false, 0, st.duration_ms, st.speed, st.volume⟩ := by
  obtain ⟨h1, h2, h3, h4⟩ := h
  simp [mkState, derivedPosition, h2, h3, h4, posMs]

/-- Observation events preserve the position bookkeeping: accumulator,
resume instant and speed. -/
theorem obs_step_preserves (st : ThreadState) (e : Event) (he : e.isObservation = true) :
    (threadStep st e).pause_position = st.pause_position ∧
    (threadStep st e).start_time = st.start_time ∧
    (threadStep st e).speed = st.speed := by
  cases e with
  | cmd now c =>
    cases c with
    | load r d => simp [Event.isObservation] at he
    | play => simp [Event.isObservation] at he
    | pause => simp [Event.isObservation] at he
    | stop => simp [Event.isObservation] at he
    | setSpeed f => simp [Event.isObservation] at he
    | setVolume f => simp [Event.isObservation] at he
    | getState => exact ⟨rfl, rfl, rfl⟩
    | isFinished b => exact ⟨rfl, rfl, rfl⟩
  | tick now b =>
    cases hsink : st.sink with
    | none => simp [threadStep, handleTimeout, hsink]
    | some k =>
      simp only [threadStep, handleTimeout, hsink]
      split <;> exact ⟨rfl, rfl, rfl⟩

/-- Run-level closure of `obs_step_preserves`. -/
theorem obs_run_preserves (st : ThreadState) (l : List Event)
    (hl : ∀ e ∈ l, e.isObservation = true) :
    (runThread st l).pause_position = st.pause_position ∧
    (runThread st l).start_time = st.start_time ∧
    (runThread st l).speed = st.speed := by
  induction l generalizing st with
  | nil => exact ⟨rfl, rfl, rfl⟩
  | cons e t ih =>
    have he := hl e (List.mem_cons_self e t)
    have hstep := obs_step_preserves st e he
    have hrest := ih (threadStep st e) (fun x hx => hl x (List.mem_cons_of_mem e hx))
    exact ⟨hrest.1.trans hstep.1, hrest.2.1.trans hstep.2.1, hrest.2.2.trans hstep.2.2⟩

/-- The reported position is monotone in the underlying position when the
speed is non-negative. -/
theorem posMs_mono (p1 p2 sp : ℚ) (hp : p1 ≤ p2) (hsp : 0 ≤ sp) :
    posMs p1 sp ≤ posMs p2 sp := by
  unfold posMs
  have h1 : p1 * sp ≤ p2 * sp := mul_le_mul_of_nonneg_right hp hsp
  have h2 : p1 * sp * 1000 ≤ p2 * sp * 1000 :=
    mul_le_mul_of_nonneg_right h1 (by norm_num)
  exact Int.toNat_le_toNat (Int.floor_le_floor h2)

/-- Every loop iteration preserves the invariant that a set playing flag
comes with a set resume instant.  Note the converse is not preserved: the
exhaustion check clears only the flag. -/
theorem playing_implies_resumed_step (st : ThreadState) (e : Event)
    (h : st.is_playing = true → st.start_time.isSome = true) :
    (threadStep st e).is_playing = true → (threadStep st e).start_time.isSome = true := by
  cases e with
  | cmd now c =>
    cases c with
    | load r d =>
      cases r with
      | ok => simp [threadStep, handleCommand]
      | errOutput => simpa [threadStep, handleCommand] using h
      | errFile => simpa [threadStep, handleCommand] using h
      | errDecode => simpa [threadStep, handleCommand] using h
      | errSink => simpa [threadStep, handleCommand] using h
    | play =>
      cases hsink : st.sink with
      | none => simpa [threadStep, handleCommand, hsink] using h
      | some k => simp [threadStep, handleCommand, hsink]
    | pause =>
      cases hsink : st.sink with
      | none => simpa [threadStep, handleCommand, hsink] using h
      | some k => simp [threadStep, handleCommand, hsink]
    | stop => simp [threadStep, handleCommand]
    | setSpeed f => simpa [threadStep, handleCommand] using h
    | setVolume f => simpa [threadStep, handleCommand] using h
    | getState => simpa [threadStep, handleCommand] using h
    | isFinished b => simpa [threadStep, handleCommand] using h
  | tick now b =>
    cases hsink : st.sink with
    | none => simpa [threadStep, handleTimeout, hsink] using h
    | some k =>
      simp only [threadStep, handleTimeout, hsink]
      split
      · simp
      · exact h

/-- In every state reachable from the initial state, a set playing flag
comes with a set resume instant, so the derived position of every playing
state accumulates from the resume instant. -/
theorem playing_implies_resumed_run (l : List Event) :
    (runThread initThread l).is_playing = true →
    (runThread initThread l).start_time.isSome = true := by
  have key : ∀ m : List Event, ∀ st : ThreadState,
      (st.is_playing = true → st.start_time.isSome = true) →
      ((runThread st m).is_playing = true → (runThread st m).start_time.isSome = true) := by
    intro m
    induction m with
    | nil => intro st h; exact h
    | cons e t ih =>
      intro st h
      exact ih (threadStep st e) (playing_implies_resumed_step st e h)
  exact key l initThread (by decide)

/-! ## Claim theorems -/

/-- Claim C6: the `IsFinished` query answered by the controller thread is
`true` whenever no sink is loaded (in particular in the initial state and
after `Stop`), and with a sink loaded it is `true` iff the sink reports no
queued remaining audio. -/
theorem C6_is_finished_query (st : ThreadState) (now now2 : ℚ) (sinkEmpty : Bool) :
    (∃ r, (handleCommand st now (.isFinished sinkEmpty)).finReply = some r ∧
      (r = true ↔ (st.sink = none ∨ sinkEmpty = true))) ∧
    (handleCommand initThread now (.isFinished sinkEmpty)).finReply = some true ∧
    (handleCommand ((handleCommand st now2 .stop).state) now
      (.isFinished sinkEmpty)).finReply = some true := by
  refine ⟨⟨(Option.map (fun _ => sinkEmpty) st.sink).getD true, rfl, ?_⟩, rfl, rfl⟩
  cases st.sink <;> simp

/-- Claim C7: `AudioController::is_finished` waits on the reply with a
100 ms timeout; when the send fails or no reply arrives it returns `true`,
and otherwise it returns the reply. -/
theorem C7_is_finished_fail_open (reply : Option Bool) (b : Bool) :
    isFinishedTimeoutMs = 100 ∧
    controllerIsFinished false reply = true ∧
    controllerIsFinished true none = true ∧
    controllerIsFinished true (some b) = b :=
  ⟨rfl, rfl, rfl, rfl⟩

/-- Claim C8: `SetSpeed f` stores exactly `clamp(f, 0.5, 2.0)` and applies
it to the live sink when one exists; `SetVolume g` does the same with
`clamp(g, 0.0, 1.0)`; and a later successful `Load` creates its sink at
the remembered speed and volume. -/
theorem C8_set_speed_volume_clamped (st : ThreadState) (f g now tq tv : ℚ) (d : ℕ) :
    ((handleCommand st now (.setSpeed f)).state).speed = rclamp f (1/2) 2 ∧
    ((handleCommand st now (.setSpeed f)).state).sink =
      Option.map (fun k => { k with speed := rclamp f (1/2) 2 }) st.sink ∧
    ((handleCommand st now (.setVolume g)).state).volume = rclamp g 0 1 ∧
    ((handleCommand st now (.setVolume g)).state).sink =
      Option.map (fun k => { k with volume := rclamp g 0 1 }) st.sink ∧
    ((handleCommand ((handleCommand st now (.setSpeed f)).state) tq (.load .ok d)).state).sink =
      some { speed := rclamp f (1/2) 2, volume := st.volume, paused := true } ∧
    ((handleCommand ((handleCommand st now (.setVolume g)).state) tv (.load .ok d)).state).sink =
      some { speed := st.speed, volume := rclamp g 0 1, paused := true } :=
  ⟨rfl, rfl, rfl, rfl, rfl, rfl⟩

/-- Claim C1, counterexample: load a 5000 ms source, `Stop`, then observe
`GetState`: position and playing flag are reset but `duration_ms` is still
5000, not 0, because the `Stop` arm never resets `duration`. -/
theorem C1_counterexample :
    (handleCommand (runThread initThread [.cmd 0 (.load .ok 5000), .cmd 1 .stop])
        2 .getState).stateReply =
      some { is_playing := false, position_ms := 0, duration_ms := 5000,
             speed := 1, volume := 1 } ∧
    (5000 : ℕ) ≠ 0 := by
  refine ⟨?_, by decide⟩
  norm_num [runThread, List.foldl, threadStep, handleCommand, rclamp, mkState,
    derivedPosition, posMs, initThread]

/-- Claim C2, counterexample, in two parts against the original claim.
Monotone-while-playing fails: while playing at speed 2 the derived
position after 10 s reads 20000 ms, and a `SetSpeed 0.5` at that instant
makes the very next observation read 5000 ms with `is_playing` still true.
Frozen-while-paused-or-stopped fails: the exhaustion tick clears
`is_playing` but not the resume instant, so the two following
observations both report `is_playing = false` yet the position grows from
10000 ms to 20000 ms with no state-changing command in between. -/
theorem C2_counterexample :
    (handleCommand
        (runThread initThread [.cmd 0 (.setSpeed 2), .cmd 0 (.load .ok 60000), .cmd 0 .play])
        10 .getState).stateReply =
      some { is_playing := true, position_ms := 20000, duration_ms := 60000,
             speed := 2, volume := 1 } ∧
    (handleCommand
        (runThread initThread [.cmd 0 (.setSpeed 2), .cmd 0 (.load .ok 60000), .cmd 0 .play,
          .cmd 10 (.setSpeed (1/2))])
        10 .getState).stateReply =
      some { is_playing := true, position_ms := 5000, duration_ms := 60000,
             speed := 1/2, volume := 1 } ∧
    (5000 : ℕ) < 20000 ∧
    (handleCommand
        (runThread initThread [.cmd 0 (.load .ok 60000), .cmd 0 .play, .tick 10 true])
        10 .getState).stateReply =
      some { is_playing := false, position_ms := 10000, duration_ms := 60000,
             speed := 1, volume := 1 } ∧
    (handleCommand
        (runThread initThread [.cmd 0 (.load .ok 60000), .cmd 0 .play, .tick 10 true])
        20 .getState).stateReply =
      some { is_playing := false, position_ms := 20000, duration_ms := 60000,
             speed := 1, volume := 1 } ∧
    (10000 : ℕ) < 20000 := by
  refine ⟨?_, ?_, by decide, ?_, ?_, by decide⟩ <;>
  · norm_num [runThread, List.foldl, threadStep, handleCommand, handleTimeout, rclamp,
      mkState, derivedPosition, posMs, initThread]
    decide

/-- Claim C3, counterexample: after a successful load and `Play`, a failed
`Load` discards the sink but leaves `is_playing = true`, the resume
instant set and the old duration, so the controller is not left in a
consistent not-playing `Empty` state with accumulator and instant reset. -/
theorem C3_counterexample :
    (runThread initThread
        [.cmd 0 (.load .ok 5000), .cmd 1 .play, .cmd 3 (.load .errFile 7000)]).sink
      = none ∧
    (runThread initThread
        [.cmd 0 (.load .ok 5000), .cmd 1 .play, .cmd 3 (.load .errFile 7000)]).is_playing
      = true ∧
    (runThread initThread
        [.cmd 0 (.load .ok 5000), .cmd 1 .play, .cmd 3 (.load .errFile 7000)]).start_time
      = some 1 := by
  refine ⟨rfl, rfl, ?_⟩
  rfl

/-- Claim C4, counterexample: immediately after the controller handles
`Load` and `Play`, the shared snapshot is still the initial default
(`is_playing = false`, `duration_ms = 0`) although the thread state is
playing with duration 5000: command arms never republish the snapshot. -/
theorem C4_counterexample :
    (runSys initSys [.cmd 0 (.load .ok 5000), .cmd 0 .play]).thread.is_playing = true ∧
    (runSys initSys [.cmd 0 (.load .ok 5000), .cmd 0 .play]).thread.duration_ms = 5000 ∧
    (runSys initSys [.cmd 0 (.load .ok 5000), .cmd 0 .play]).shared = initShared := by
  refine ⟨rfl, rfl, rfl⟩

/-- Claim C5: for every loaded state, `Pause` at time `tp` then `Play` at
time `tq` resumes with no gap and no rewind: the derived position at the
instant `Play` is handled equals the derived position at the instant
`Pause` was handled (also as reported `position_ms`), and position
continues to accumulate from that value. -/
theorem C5_pause_then_play_resumes (st : ThreadState) (k : Sink) (hk : st.sink = some k)
    (tp tq d : ℚ) :
    derivedPosition ((handleCommand ((handleCommand st tp .pause).state) tq .play).state) tq
      = derivedPosition st tp ∧
    derivedPosition ((handleCommand ((handleCommand st tp .pause).state) tq .play).state) (tq + d)
      = derivedPosition st tp + d ∧
    (mkState ((handleCommand ((handleCommand st tp .pause).state) tq .play).state) tq).position_ms
      = (mkState st tp).position_ms := by
  cases hstart : st.start_time with
  | none =>
    simp [handleCommand, hk, hstart, derivedPosition, mkState]
  | some s =>
    simp [handleCommand, hk, hstart, derivedPosition, mkState]

/-- Claim C5, witness at a concrete loaded playing state. -/
theorem C5_witness :
    derivedPosition ((handleCommand ((handleCommand
        ⟨some ⟨1, 1, false⟩, some 0, 0, 5000, 1, 1, true⟩ 2 .pause).state) 5 .play).state) 5
      = derivedPosition ⟨some ⟨1, 1, false⟩, some 0, 0, 5000, 1, 1, true⟩ 2 ∧
    derivedPosition ((handleCommand ((handleCommand
        ⟨some ⟨1, 1, false⟩, some 0, 0, 5000, 1, 1, true⟩ 2 .pause).state) 5 .play).state) (5 + 3)
      = derivedPosition ⟨some ⟨1, 1, false⟩, some 0, 0, 5000, 1, 1, true⟩ 2 + 3 ∧
    (mkState ((handleCommand ((handleCommand
        ⟨some ⟨1, 1, false⟩, some 0, 0, 5000, 1, 1, true⟩ 2 .pause).state) 5 .play).state) 5).position_ms
      = (mkState ⟨some ⟨1, 1, false⟩, some 0, 0, 5000, 1, 1, true⟩ 2).position_ms :=
  C5_pause_then_play_resumes ⟨some ⟨1, 1, false⟩, some 0, 0, 5000, 1, 1, true⟩
    ⟨1, 1, false⟩ rfl 2 5 3

/-- Claim C9: when a source is loaded and playback is active, a second
`Play` at time `t` overwrites the resume instant with `t` without folding
the elapsed time into the paused accumulator, so the derived position
drops back to the accumulator value, although just before the command it
was the accumulator plus the time elapsed since the previous `Play`. -/
theorem C9_replay_discards_elapsed (st : ThreadState) (k : Sink) (s0 t : ℚ)
    (hk : st.sink = some k) (hs : st.start_time = some s0) (hp : st.is_playing = true) :
    ((handleCommand st t .play).state).start_time = some t ∧
    ((handleCommand st t .play).state).pause_position = st.pause_position ∧
    derivedPosition ((handleCommand st t .play).state) t = st.pause_position ∧
    derivedPosition st t = st.pause_position + (t - s0) := by
  simp [handleCommand, hk, hs, derivedPosition]

/-- Claim C9, witness: replaying at time 4 after a `Play` at time 0 with
accumulator 7 drops the derived position from 7 + (4 - 0) back to 7. -/
theorem C9_witness :
    ((handleCommand ⟨some ⟨1, 1, false⟩, some 0, 7, 5000, 1, 1, true⟩ 4 .play).state).start_time
      = some 4 ∧
    ((handleCommand ⟨some ⟨1, 1, false⟩, some 0, 7, 5000, 1, 1, true⟩ 4 .play).state).pause_position
      = 7 ∧
    derivedPosition ((handleCommand ⟨some ⟨1, 1, false⟩, some 0, 7, 5000, 1, 1, true⟩ 4 .play).state) 4
      = 7 ∧
    derivedPosition ⟨some ⟨1, 1, false⟩, some 0, 7, 5000, 1, 1, true⟩ 4 = 7 + (4 - 0) :=
  C9_replay_discards_elapsed ⟨some ⟨1, 1, false⟩, some 0, 7, 5000, 1, 1, true⟩
    ⟨1, 1, false⟩ 0 4 rfl rfl rfl

/-- Claim C10: with a sink loaded and playing, the tick that first
observes the sink empty still publishes `is_playing = true` and only then
clears the local flag; the following tick publishes `is_playing = false`;
and the only command arm that observes sink emptiness, `IsFinished`, never
changes the thread state, so no command flips the flag on exhaustion. -/
theorem C10_exhaustion_only_on_tick (st : ThreadState) (now now2 : ℚ) (e2 : Bool)
    (hk : st.sink.isSome = true) (hp : st.is_playing = true) :
    (handleTimeout st now true).published.is_playing = true ∧
    ((handleTimeout st now true).state).is_playing = false ∧
    (handleTimeout ((handleTimeout st now true).state) now2 e2).published.is_playing = false ∧
    (∀ st0 t b, (handleCommand st0 t (.isFinished b)).state = st0) := by
  obtain ⟨k, hk⟩ := Option.isSome_iff_exists.mp hk
  refine ⟨?_, ?_, ?_, fun st0 t b => rfl⟩ <;>
    simp [handleTimeout, mkState, hk, hp]

/-- Claim C10, witness at a concrete playing state whose sink is observed
empty at the tick at time 1. -/
theorem C10_witness :
    (handleTimeout ⟨some ⟨1, 1, false⟩, some 0, 0, 5000, 1, 1, true⟩ 1 true).published.is_playing
      = true ∧
    ((handleTimeout ⟨some ⟨1, 1, false⟩, some 0, 0, 5000, 1, 1, true⟩ 1 true).state).is_playing
      = false ∧
    (handleTimeout ((handleTimeout ⟨some ⟨1, 1, false⟩, some 0, 0, 5000, 1, 1, true⟩ 1 true).state)
        2 false).published.is_playing = false ∧
    (∀ st0 t b, (handleCommand st0 t (.isFinished b)).state = st0) :=
  C10_exhaustion_only_on_tick ⟨some ⟨1, 1, false⟩, some 0, 0, 5000, 1, 1, true⟩
    1 2 false rfl rfl

/-- Claim C1 (amended): handling `Stop` resets the accumulator, resume
instant and playing flag, so every state computation until the next `Load`
reports position 0 and not playing; but `duration_ms` is not reset and
keeps the last loaded value. -/
theorem C1_amended_stop_resets (st : ThreadState) (now : ℚ) (l : List Event)
    (hl : ∀ e ∈ l, e.isLoad = false) :
    StoppedState ((handleCommand st now .stop).state) ∧
    ((handleCommand st now .stop).state).duration_ms = st.duration_ms ∧
    ∀ t, mkState (runThread ((handleCommand st now .stop).state) l) t =
      ⟨false, 0, st.duration_ms,
        (runThread ((handleCommand st now .stop).state) l).speed,
        (runThread ((handleCommand st now .stop).state) l).volume⟩ := by
  have hstop : StoppedState ((handleCommand st now .stop).state) := by
    simp [handleCommand, StoppedState]
  have hrun := stopped_run_preserved _ l hl hstop
  refine ⟨hstop, rfl, fun t => ?_⟩
  rw [stopped_mkState _ hrun.1 t, hrun.2]
  rfl

/-- Claim C1 (amended), witness: stop a playing 5000 ms source at time 2,
let a tick and a query pass, observe at time 9. -/
theorem C1_amended_witness :
    mkState (runThread ((handleCommand ⟨some ⟨1, 1, false⟩, some 0, 2, 5000, 1, 1, true⟩
          2 .stop).state) [.tick 3 false, .cmd 4 .getState]) 9 =
      ⟨false, 0, 5000,
        (runThread ((handleCommand ⟨some ⟨1, 1, false⟩, some 0, 2, 5000, 1, 1, true⟩
          2 .stop).state) [.tick 3 false, .cmd 4 .getState]).speed,
        (runThread ((handleCommand ⟨some ⟨1, 1, false⟩, some 0, 2, 5000, 1, 1, true⟩
          2 .stop).state) [.tick 3 false, .cmd 4 .getState]).volume⟩ :=
  (C1_amended_stop_resets ⟨some ⟨1, 1, false⟩, some 0, 2, 5000, 1, 1, true⟩ 2
    [.tick 3 false, .cmd 4 .getState] (by decide)).2.2 9

/-- Claim C2 (amended): across successive observations with no
state-changing command in between (only ticks, `GetState` and
`IsFinished`), the reported `position_ms` is non-decreasing whenever the
resume instant is set and constant exactly while it is cleared, for
non-negative speed and non-decreasing wall-clock.  In every reachable
state a set playing flag comes with a set resume instant, so position is
non-decreasing while playing; the converse fails: the exhaustion tick
clears the playing flag but not the resume instant, so after exhaustion
the position keeps growing although `is_playing` reads false, and
position is not frozen in every paused-or-stopped observation. -/
theorem C2_amended_position_monotonicity (st : ThreadState) (l : List Event)
    (hl : ∀ e ∈ l, e.isObservation = true) (hsp : 0 ≤ st.speed)
    (t1 t2 : ℚ) (ht : t1 ≤ t2) :
    (∀ s0, st.start_time = some s0 →
      (mkState st t1).position_ms ≤ (mkState (runThread st l) t2).position_ms) ∧
    (st.start_time = none →
      (mkState (runThread st l) t2).position_ms = (mkState st t1).position_ms) ∧
    (∀ l2, (runThread initThread l2).is_playing = true →
      (runThread initThread l2).start_time.isSome = true) ∧
    (∀ st0 n0, st0.sink.isSome = true → st0.is_playing = true →
      ((handleTimeout st0 n0 true).state).start_time = st0.start_time ∧
      ((handleTimeout st0 n0 true).state).is_playing = false) := by
  obtain ⟨hpp, hst, hspd⟩ := obs_run_preserves st l hl
  refine ⟨?_, ?_, fun l2 => playing_implies_resumed_run l2, fun st0 n0 h1 h2 => ?_⟩
  · intro s0 h0
    have hd : derivedPosition st t1 ≤ derivedPosition (runThread st l) t2 := by
      simp only [derivedPosition, h0, hst, hpp]
      linarith
    simp only [mkState]
    rw [hspd]
    exact posMs_mono _ _ _ hd hsp
  · intro h0
    have hd : derivedPosition (runThread st l) t2 = derivedPosition st t1 := by
      simp only [derivedPosition, h0, hst, hpp]
    simp only [mkState]
    rw [hspd, hd]
  · obtain ⟨k, hk⟩ := Option.isSome_iff_exists.mp h1
    simp [handleTimeout, hk, h2]

/-- Claim C2 (amended), witness at a post-exhaustion state (resume instant
set, playing flag cleared), observed at times 3 and 7 with only a tick and
an `IsFinished` query in between: the reported position is
non-decreasing. -/
theorem C2_amended_witness :
    (mkState ⟨some ⟨1, 1, false⟩, some 0, 0, 60000, 1, 1, false⟩ 3).position_ms ≤
      (mkState (runThread ⟨some ⟨1, 1, false⟩, some 0, 0, 60000, 1, 1, false⟩
        [.tick 1 false, .cmd 2 (.isFinished false)]) 7).position_ms :=
  (C2_amended_position_monotonicity ⟨some ⟨1, 1, false⟩, some 0, 0, 60000, 1, 1, false⟩
    [.tick 1 false, .cmd 2 (.isFinished false)] (by decide) (by decide) 3 7 (by decide)).1 0 rfl

/-- Claim C3 (amended): any failed `Load` is absorbed: no error output,
the thread continues with the sink discarded, and nothing else changes —
in particular the playing flag, accumulator and resume instant keep their
prior values rather than being reset. -/
theorem C3_amended_load_failure_absorbed (st : ThreadState) (now : ℚ) (r : LoadResult)
    (d : ℕ) (hr : r ≠ .ok) :
    handleCommand st now (.load r d) = ⟨{ st with sink := none }, none, none⟩ ∧
    ∀ l, runThread st (.cmd now (.load r d) :: l) = runThread { st with sink := none } l := by
  cases r with
  | ok => exact absurd rfl hr
  | errOutput => exact ⟨rfl, fun l => rfl⟩
  | errFile => exact ⟨rfl, fun l => rfl⟩
  | errDecode => exact ⟨rfl, fun l => rfl⟩
  | errSink => exact ⟨rfl, fun l => rfl⟩

/-- Claim C3 (amended), witness at a failed file open in the initial
state. -/
theorem C3_amended_witness :
    handleCommand initThread 0 (.load .errFile 7000) =
      ⟨{ initThread with sink := none }, none, none⟩ :=
  (C3_amended_load_failure_absorbed initThread 0 .errFile 7000 (by decide)).1

/-- Claim C4 (amended): the shared snapshot is wholly replaced only on the
50 ms receive-timeout tick; command arms never write it, so the snapshot
reflects a command only after the next tick, which publishes the full
derived state of the thread at that instant. -/
theorem C4_amended_publish_only_on_tick (s : SysState) (now t2 : ℚ) (c : AudioCommand)
    (sinkEmpty : Bool) :
    (sysStep s (.cmd now c)).shared = s.shared ∧
    (sysStep s (.tick now sinkEmpty)).shared = mkState s.thread now ∧
    (sysStep (sysStep s (.cmd now c)) (.tick t2 sinkEmpty)).shared
      = mkState ((handleCommand s.thread now c).state) t2 ∧
    tickMs = 50 :=
  ⟨rfl, rfl, rfl, rfl⟩
